import Mathlib

/-!
Shallow embedding of the fixed-buffer allocator family (LinearAllocator,
StackAllocator, PoolAllocator, FreeListAllocator) from Src/*.cpp.

Conventions:
* addresses are natural numbers; the C++ null pointer is the address 0, and
  a function that can return a null pointer returns an `Option Nat`
  (`none` = nullptr);
* `sizeof(FreeListAllocator::FreeBlock) = 16`,
  `sizeof(FreeListAllocator::AllocationHeader) = 16`,
  `sizeof(StackAllocator::AllocationHeader) = 16` (LP64 layout);
* in-band metadata (allocation headers) is modelled as an association list
  keyed by the user pointer; reading a header where none was written models
  an indeterminate memory read and yields `none`;
* `(x + a - 1) & ~(a - 1)` for a power-of-two `a` is embedded as
  `((x + a - 1) / a) * a`, which is equal to it on non-overflowing values;
* the `static_cast<uint8_t>` of the free-list header padding is kept as
  `% 256`.
-/

namespace Mem

/-- Round `x` up to a multiple of `a`; embeds the mask computation
`(x + a - 1) & ~(a - 1)` used for power-of-two `a`. -/
def alignUp (x a : Nat) : Nat := ((x + a - 1) / a) * a

namespace LinearAllocator

structure State where
  base : Nat
  bufferSize : Nat
  offset : Nat
  peakUsage : Nat
  allocationCount : Nat
deriving DecidableEq

/-- LinearAllocator::Allocate (LinearAllocator.cpp:18-33). -/
def Allocate (s : State) (size alignment : Nat) : Option Nat × State :=
  let padding := (alignment - s.offset % alignment) % alignment
  let newOffset := s.offset + padding + size
  if s.bufferSize < newOffset then
    (none, s)
  else
    let p := s.base + s.offset + padding
    (some p,
      { s with
        offset := newOffset
        allocationCount := s.allocationCount + 1
        peakUsage := max s.peakUsage newOffset })

/-- LinearAllocator::Owns (LinearAllocator.cpp:68-70). -/
def Owns (s : State) (p : Nat) : Bool :=
  decide (s.base ≤ p ∧ p < s.base + s.offset)

/-- LinearAllocator::GetAllocationSize (LinearAllocator.cpp:48-53). -/
def GetAllocationSize (s : State) (p : Nat) : Nat :=
  if p < s.base ∨ s.base + s.offset ≤ p then 0
  else s.base + s.offset - p

/-- LinearAllocator::GetTotalAllocated (LinearAllocator.cpp:55-57). -/
def GetTotalAllocated (s : State) : Nat := s.offset

/-- LinearAllocator::GetPeakUsage. -/
def GetPeakUsage (s : State) : Nat := s.peakUsage

/-- LinearAllocator::Reset (LinearAllocator.cpp:63-66). -/
def Reset (s : State) : State :=
  { s with offset := 0, allocationCount := 0 }

/-- LinearAllocator::ValidateInternalState (LinearAllocator.cpp:96-98). -/
def ValidateInternalState (s : State) : Bool :=
  decide (s.offset ≤ s.bufferSize)

end LinearAllocator

/-- Look up the in-band record stored at user pointer `p`
(an association list keyed by user pointer). -/
def findEntry (hs : List (Nat × Nat × Nat)) (p : Nat) : Option (Nat × Nat) :=
  (hs.find? (fun t => t.1 = p)).map (fun t => (t.2.1, t.2.2))

namespace StackAllocator

structure State where
  base : Nat
  bufferSize : Nat
  offset : Nat
  markers : List Nat        -- head = most recently pushed marker (vector back)
  headers : List (Nat × Nat × Nat)  -- (user ptr, size, adjustment)
  peakUsage : Nat
  allocationCount : Nat
deriving DecidableEq

/-- StackAllocator::Allocate (StackAllocator.cpp:18-38);
`sizeof(AllocationHeader) = 16`. -/
def Allocate (s : State) (size alignment : Nat) : Option Nat × State :=
  let padding := (alignment - (s.offset + 16) % alignment) % alignment
  let newOffset := s.offset + (size + 16) + padding
  if s.bufferSize < newOffset then
    (none, s)
  else
    let p := s.base + s.offset + 16 + padding
    (some p,
      { s with
        offset := newOffset
        headers := (p, size, 16 + padding) :: s.headers
        allocationCount := s.allocationCount + 1
        peakUsage := max s.peakUsage newOffset })

/-- StackAllocator::Free (StackAllocator.cpp:40-46); reading the header of a
pointer no allocation wrote one for is an indeterminate read (`none`). -/
def Free (s : State) (p : Nat) : Option State :=
  if p = 0 then some s
  else
    match findEntry s.headers p with
    | none => none
    | some (_, adjustment) =>
      some { s with
             offset := p - s.base - adjustment
             allocationCount := s.allocationCount - 1 }

/-- StackAllocator::Owns (StackAllocator.cpp:95-97). -/
def Owns (s : State) (p : Nat) : Bool :=
  decide (s.base ≤ p ∧ p < s.base + s.offset)

/-- StackAllocator::GetAllocationSize (StackAllocator.cpp:75-79). -/
def GetAllocationSize (s : State) (p : Nat) : Option Nat :=
  if Owns s p then (findEntry s.headers p).map (fun h => h.1)
  else some 0

/-- StackAllocator::GetTotalAllocated. -/
def GetTotalAllocated (s : State) : Nat := s.offset

/-- StackAllocator::GetPeakUsage. -/
def GetPeakUsage (s : State) : Nat := s.peakUsage

/-- StackAllocator::Reset (StackAllocator.cpp:89-93). -/
def Reset (s : State) : State :=
  { s with offset := 0, allocationCount := 0, markers := [] }

/-- StackAllocator::GetMarker (StackAllocator.cpp:140-142). -/
def GetMarker (s : State) : Nat := s.offset

/-- StackAllocator::FreeToMarker (StackAllocator.cpp:144-148). -/
def FreeToMarker (s : State) (marker : Nat) : State :=
  if marker ≤ s.offset then { s with offset := marker } else s

/-- StackAllocator::PushMarker (StackAllocator.cpp:150-152). -/
def PushMarker (s : State) : State :=
  { s with markers := s.offset :: s.markers }

/-- StackAllocator::PopMarker (StackAllocator.cpp:154-159). -/
def PopMarker (s : State) : State :=
  match s.markers with
  | [] => s
  | m :: rest => { FreeToMarker s m with markers := rest }

/-- Run a list of (size, alignment) allocation requests in order, failing if
any single Allocate returns null. -/
def allocMany (s : State) : List (Nat × Nat) → Option State
  | [] => some s
  | (sz, al) :: rest =>
    match Allocate s sz al with
    | (some _, s') => allocMany s' rest
    | (none, _) => none

end StackAllocator

namespace PoolAllocator

structure PoolClass where
  memory : Nat      -- slab base address
  blockSize : Nat
  blockCount : Nat
  freeList : List Nat  -- head = freelist head (intrusive list of idle blocks)
deriving DecidableEq

structure State where
  pools : List PoolClass
  totalAllocated : Nat
  peakUsage : Nat
  allocationCount : Nat
deriving DecidableEq

/-- The intrusive freelist built by the constructor loop
(PoolAllocator.cpp:19-25): blocks pushed in address order, so the head is
the highest-addressed block. -/
def mkFreeList (base bs : Nat) : Nat → List Nat
  | 0 => []
  | n + 1 => (base + n * bs) :: mkFreeList base bs n

/-- One pool as built by the constructor (PoolAllocator.cpp:9-27). -/
def mkPoolClass (base bs count : Nat) : PoolClass :=
  ⟨base, bs, count, mkFreeList base bs count⟩

/-- The findPool scan fused with the freelist pop of Allocate
(PoolAllocator.cpp:37-54 and 187-194): first class with
`size ≤ blockSize`; `.error` models the `std::runtime_error` thrown by
findPool when no class fits. On success also returns the chosen class's
blockSize. -/
def allocLoop (size : Nat) : List PoolClass → Except Unit (Option (Nat × Nat) × List PoolClass)
  | [] => .error ()
  | pc :: rest =>
    if size ≤ pc.blockSize then
      match pc.freeList with
      | [] => .ok (none, pc :: rest)
      | b :: fl => .ok (some (b, pc.blockSize), { pc with freeList := fl } :: rest)
    else
      match allocLoop size rest with
      | .ok (r, rest') => .ok (r, pc :: rest')
      | .error e => .error e

/-- PoolAllocator::Allocate (PoolAllocator.cpp:37-54); the alignment
argument is ignored by the source. -/
def Allocate (s : State) (size _alignment : Nat) : Except Unit (Option Nat × State) :=
  match allocLoop size s.pools with
  | .error e => .error e
  | .ok (none, ps) => .ok (none, { s with pools := ps })
  | .ok (some (b, bs), ps) =>
    let ta := s.totalAllocated + bs
    .ok (some b,
      { pools := ps
        totalAllocated := ta
        allocationCount := s.allocationCount + 1
        peakUsage := max s.peakUsage ta })

/-- Address-range scan of Free (PoolAllocator.cpp:60-70). -/
def freeLoop (p : Nat) : List PoolClass → Option (List PoolClass × Nat)
  | [] => none
  | pc :: rest =>
    if pc.memory ≤ p ∧ p < pc.memory + pc.blockSize * pc.blockCount then
      some ({ pc with freeList := p :: pc.freeList } :: rest, pc.blockSize)
    else
      match freeLoop p rest with
      | some (rest', bs) => some (pc :: rest', bs)
      | none => none

/-- PoolAllocator::Free (PoolAllocator.cpp:56-72). -/
def Free (s : State) (p : Nat) : State :=
  if p = 0 then s
  else
    match freeLoop p s.pools with
    | none => s
    | some (ps, bs) =>
      { s with
        pools := ps
        totalAllocated := s.totalAllocated - bs
        allocationCount := s.allocationCount - 1 }

/-- PoolAllocator::Owns (PoolAllocator.cpp:127-137). -/
def Owns (s : State) (p : Nat) : Bool :=
  s.pools.any (fun pc =>
    decide (pc.memory ≤ p ∧ p < pc.memory + pc.blockSize * pc.blockCount))

/-- PoolAllocator::GetAllocationSize (PoolAllocator.cpp:84-94). -/
def GetAllocationSize (s : State) (p : Nat) : Nat :=
  match s.pools.find? (fun pc =>
      decide (pc.memory ≤ p ∧ p < pc.memory + pc.blockSize * pc.blockCount)) with
  | some pc => pc.blockSize
  | none => 0

/-- PoolAllocator::GetTotalAllocated. -/
def GetTotalAllocated (s : State) : Nat := s.totalAllocated

/-- PoolAllocator::GetPeakUsage. -/
def GetPeakUsage (s : State) : Nat := s.peakUsage

/-- PoolAllocator::Reset (PoolAllocator.cpp:110-125). -/
def Reset (s : State) : State :=
  { s with
    pools := s.pools.map (fun pc =>
      { pc with freeList := mkFreeList pc.memory pc.blockSize pc.blockCount })
    totalAllocated := 0
    allocationCount := 0 }

instance : DecidableEq (Except Unit (Option Nat × State))
  | .error (), .error () => isTrue rfl
  | .ok x, .ok y =>
    if h : x = y then isTrue (congrArg Except.ok h)
    else isFalse (fun he => h (Except.ok.inj he))
  | .error _, .ok _ => isFalse (fun he => Except.noConfusion he)
  | .ok _, .error _ => isFalse (fun he => Except.noConfusion he)

/-- Whether a pool Allocate call returned normally (did not throw). -/
def isOkB (e : Except Unit (Option Nat × State)) : Bool :=
  match e with
  | .ok _ => true
  | .error _ => false

/-- The returned pointer of a pool Allocate call, when it did not throw. -/
def allocPtr (e : Except Unit (Option Nat × State)) : Option (Option Nat) :=
  match e with
  | .ok (r, _) => some r
  | .error _ => none

/-- The post-state of a pool Allocate call, when it did not throw. -/
def allocState (e : Except Unit (Option Nat × State)) : Option State :=
  match e with
  | .ok (_, s) => some s
  | .error _ => none

end PoolAllocator

namespace FreeListAllocator

structure State where
  base : Nat
  bufferSize : Nat
  freeList : List (Nat × Nat)   -- (block address, block size) in linked order
  headers : List (Nat × Nat × Nat)  -- (user ptr, header size, header padding byte)
  allocatedSize : Nat
  peakUsage : Nat
  allocationCount : Nat
deriving DecidableEq

/-- The constructor (FreeListAllocator.cpp:10-21): one free block spans the
whole buffer. -/
def mk (base bufferSize : Nat) : State :=
  ⟨base, bufferSize, [(base, bufferSize)], [], 0, 0, 0⟩

/-- The freelist walk of Allocate (FreeListAllocator.cpp:33-73):
`sizeof(FreeBlock) = 16`, `sizeof(AllocationHeader) = 16`,
`MIN_BLOCK_SIZE = sizeof(FreeBlock) = 16`. Returns
(aligned user address, header size as written, alignment padding) together
with the updated freelist. -/
def allocWalk (size alignment : Nat) : List (Nat × Nat) → Option ((Nat × Nat × Nat) × List (Nat × Nat))
  | [] => none
  | (c, bsz) :: rest =>
    let headerAddress := c + 16
    let aligned := alignUp (headerAddress + 16) alignment
    let pad := aligned - headerAddress
    let required := (size + 16) + pad
    if required ≤ bsz then
      if bsz - required ≤ 16 then
        some ((aligned, bsz, pad), rest)
      else
        some ((aligned, required, pad), (c + required, bsz - required) :: rest)
    else
      match allocWalk size alignment rest with
      | some (r, rest') => some (r, (c, bsz) :: rest')
      | none => none

/-- FreeListAllocator::Allocate (FreeListAllocator.cpp:27-76). The header
stores the (possibly absorbed) block size and the padding truncated to a
uint8_t; the counter grows by `requiredSize - sizeof(FreeBlock)`. -/
def Allocate (s : State) (size alignment : Nat) : Option Nat × State :=
  match allocWalk size alignment s.freeList with
  | none => (none, s)
  | some ((p, req, pad), fl) =>
    let newAlloc := s.allocatedSize + (req - 16)
    (some p,
      { s with
        freeList := fl
        headers := (p, req, pad % 256) :: s.headers
        allocatedSize := newAlloc
        allocationCount := s.allocationCount + 1
        peakUsage := max s.peakUsage newAlloc })

/-- The sorted insertion plus the two coalescing steps of Free
(FreeListAllocator.cpp:87-111): link the block at `(ba, bs)` before the
first block at an address ≥ `ba`, absorb the successor when contiguous,
then let the predecessor absorb the result when contiguous. -/
def insertFree (l : List (Nat × Nat)) (ba bs : Nat) : List (Nat × Nat) :=
  let before := l.takeWhile (fun b => b.1 < ba)
  let after := l.dropWhile (fun b => b.1 < ba)
  let merged :=
    match after with
    | (a2, s2) :: rest2 =>
      if ba + bs = a2 then ((ba, bs + s2), rest2) else ((ba, bs), after)
    | [] => ((ba, bs), [])
  match before.getLast? with
  | some (ap, sp) =>
    if ap + sp = ba then
      before.dropLast ++ (ap, sp + merged.1.2) :: merged.2
    else
      before ++ merged.1 :: merged.2
  | none => merged.1 :: merged.2

/-- FreeListAllocator::Free (FreeListAllocator.cpp:78-116); reading the
header of a pointer no allocation wrote one for is an indeterminate read
(`none`). The freed header entry is dropped (its bytes become free-block
storage). -/
def Free (s : State) (p : Nat) : Option State :=
  if p = 0 then some s
  else
    match findEntry s.headers p with
    | none => none
    | some (hsize, hpad) =>
      let blockStart := p - 16 - hpad
      some { s with
             freeList := insertFree s.freeList blockStart hsize
             headers := s.headers.filter (fun t => t.1 ≠ p)
             allocatedSize := s.allocatedSize - (hsize - 16)
             allocationCount := s.allocationCount - 1 }

/-- FreeListAllocator::GetAllocationSize (FreeListAllocator.cpp:140-144):
null returns 0; any other pointer dereferences the 16 bytes before it as a
header, whether or not the allocator owns it. -/
def GetAllocationSize (s : State) (p : Nat) : Option Nat :=
  if p = 0 then some 0
  else (findEntry s.headers p).map (fun h => h.1 - 16 - h.2)

/-- FreeListAllocator::GetTotalAllocated. -/
def GetTotalAllocated (s : State) : Nat := s.allocatedSize

/-- FreeListAllocator::GetPeakUsage. -/
def GetPeakUsage (s : State) : Nat := s.peakUsage

/-- FreeListAllocator::Reset (FreeListAllocator.cpp:154-161). -/
def Reset (s : State) : State :=
  { s with
    freeList := [(s.base, s.bufferSize)]
    allocatedSize := 0
    allocationCount := 0
    peakUsage := 0 }

/-- FreeListAllocator::Owns (FreeListAllocator.cpp:163-165). -/
def Owns (s : State) (p : Nat) : Bool :=
  decide (s.base ≤ p ∧ p < s.base + s.bufferSize)

/-- Sum of the freelist block sizes (the `totalFreeSize` accumulation of
FreeListAllocator.cpp:198-204). -/
def sumFree (l : List (Nat × Nat)) : Nat :=
  l.foldl (fun acc b => acc + b.2) 0

/-- The sortedness/overlap walk of ValidateInternalState
(FreeListAllocator.cpp:199-204). -/
def checkSorted : List (Nat × Nat) → Bool
  | [] => true
  | [_] => true
  | (a, sa) :: (b, sb) :: rest =>
    if b < a + sa then false else checkSorted ((b, sb) :: rest)

/-- FreeListAllocator::ValidateInternalState (FreeListAllocator.cpp:197-206). -/
def ValidateInternalState (s : State) : Bool :=
  checkSorted s.freeList &&
    decide (sumFree s.freeList + s.allocatedSize = s.bufferSize)

/-- Run a list of (size, alignment) requests in order, collecting the
returned pointers. -/
def allocN (s : State) : List (Nat × Nat) → List (Option Nat) × State
  | [] => ([], s)
  | (sz, al) :: rest =>
    let (r, s') := Allocate s sz al
    let (rs, s'') := allocN s' rest
    (r :: rs, s'')

/-- Free a list of pointers in order, failing on an indeterminate header
read. -/
def freeAll (s : State) : List Nat → Option State
  | [] => some s
  | p :: rest =>
    match Free s p with
    | some s' => freeAll s' rest
    | none => none

end FreeListAllocator

/-! ## Arithmetic helper lemmas -/

theorem aligned_pad_mod (a x : Nat) (h : 1 ≤ a) :
    (x + (a - x % a) % a) % a = 0 := by
  rcases Nat.eq_zero_or_pos (x % a) with h0 | hpos
  · simp [h0, Nat.mod_self]
  · have hlt : x % a < a := Nat.mod_lt _ h
    have h1 : (a - x % a) % a = a - x % a := Nat.mod_eq_of_lt (by omega)
    rw [h1]
    have hdiv := Nat.div_add_mod x a
    have h2 : x + (a - x % a) = a * (x / a + 1) := by
      rw [Nat.mul_add, Nat.mul_one]; omega
    rw [h2]; exact Nat.mul_mod_right a _

theorem alignUp_mod (x a : Nat) : alignUp x a % a = 0 :=
  Nat.mul_mod_left _ _

theorem le_alignUp (x a : Nat) (h : 1 ≤ a) : x ≤ alignUp x a := by
  unfold alignUp
  have hdiv := Nat.div_add_mod (x + a - 1) a
  have hm : (x + a - 1) % a < a := Nat.mod_lt _ h
  rw [Nat.mul_comm]
  omega

theorem alignUp_le (x a : Nat) : alignUp x a ≤ x + a - 1 :=
  Nat.div_mul_le_self _ _

/-! ## Structural helper lemmas -/

theorem allocWalk_some_spec {size align : Nat} :
    ∀ {l : List (Nat × Nat)} {p req pad : Nat} {l' : List (Nat × Nat)},
      FreeListAllocator.allocWalk size align l = some ((p, req, pad), l') →
      ∃ c bsz, (c, bsz) ∈ l ∧ p = alignUp (c + 16 + 16) align ∧
        pad = p - (c + 16) ∧ size + 16 + pad ≤ req ∧ req ≤ bsz := by
  intro l
  induction l with
  | nil => intro p req pad l' h; simp [FreeListAllocator.allocWalk] at h
  | cons hd tl ih =>
    obtain ⟨c, bsz⟩ := hd
    intro p req pad l' h
    simp only [FreeListAllocator.allocWalk] at h
    split at h
    · split at h
      · simp only [Option.some.injEq, Prod.mk.injEq] at h
        obtain ⟨⟨hp, hreq, hpad⟩, -⟩ := h
        rename_i hfit _
        exact ⟨c, bsz, List.mem_cons_self _ _, hp.symm, by omega, by omega, by omega⟩
      · simp only [Option.some.injEq, Prod.mk.injEq] at h
        obtain ⟨⟨hp, hreq, hpad⟩, -⟩ := h
        rename_i hfit _
        exact ⟨c, bsz, List.mem_cons_self _ _, hp.symm, by omega, by omega, by omega⟩
    · split at h
      · rename_i r rest' hrec
        simp only [Option.some.injEq, Prod.mk.injEq] at h
        obtain ⟨hr, -⟩ := h
        obtain ⟨c', bsz', hmem, h1, h2, h3, h4⟩ := ih (hr ▸ hrec)
        exact ⟨c', bsz', List.mem_cons_of_mem _ hmem, h1, h2, h3, h4⟩
      · exact absurd h (by simp)

theorem allocWalk_none_of_no_fit {size align : Nat} :
    ∀ {l : List (Nat × Nat)},
      (∀ b ∈ l, b.2 < size + 16 + (alignUp (b.1 + 16 + 16) align - (b.1 + 16))) →
      FreeListAllocator.allocWalk size align l = none := by
  intro l
  induction l with
  | nil => intro _; rfl
  | cons hd tl ih =>
    intro h
    obtain ⟨c, bsz⟩ := hd
    have hc : bsz < size + 16 + (alignUp (c + 16 + 16) align - (c + 16)) :=
      h (c, bsz) (List.mem_cons_self _ _)
    simp only [FreeListAllocator.allocWalk]
    rw [if_neg (by omega), ih (fun b hb => h b (List.mem_cons_of_mem _ hb))]

theorem allocLoop_error_of_no_class {size : Nat} :
    ∀ {l : List PoolAllocator.PoolClass},
      (∀ pc ∈ l, pc.blockSize < size) →
      PoolAllocator.allocLoop size l = .error () := by
  intro l
  induction l with
  | nil => intro _; rfl
  | cons hd tl ih =>
    intro h
    have hhd : hd.blockSize < size := h hd (List.mem_cons_self _ _)
    simp only [PoolAllocator.allocLoop]
    rw [if_neg (by omega), ih (fun pc hpc => h pc (List.mem_cons_of_mem _ hpc))]

theorem allocLoop_ok_of_class {size : Nat} :
    ∀ {l : List PoolAllocator.PoolClass},
      (∃ pc ∈ l, size ≤ pc.blockSize) →
      ∃ out, PoolAllocator.allocLoop size l = .ok out := by
  intro l
  induction l with
  | nil =>
    rintro ⟨pc, hmem, -⟩
    exact absurd hmem (List.not_mem_nil _)
  | cons hd tl ih =>
    rintro ⟨pc, hmem, hsz⟩
    simp only [PoolAllocator.allocLoop]
    by_cases hfit : size ≤ hd.blockSize
    · rw [if_pos hfit]
      cases hfl : hd.freeList with
      | nil => exact ⟨_, rfl⟩
      | cons b fl => exact ⟨_, rfl⟩
    · rw [if_neg hfit]
      have hmem' : pc ∈ tl := by
        rcases List.mem_cons.mp hmem with he | h
        · exact absurd (he ▸ hsz) hfit
        · exact h
      obtain ⟨out, hout⟩ := ih ⟨pc, hmem', hsz⟩
      rw [hout]
      obtain ⟨r, rest'⟩ := out
      exact ⟨_, rfl⟩

theorem allocLoop_some_spec {size : Nat} :
    ∀ {l : List PoolAllocator.PoolClass} {b bs : Nat}
      {l' : List PoolAllocator.PoolClass},
      PoolAllocator.allocLoop size l = .ok (some (b, bs), l') →
      ∃ pc, pc ∈ l ∧ b ∈ pc.freeList ∧ bs = pc.blockSize ∧
        ∃ pc', pc' ∈ l' ∧ pc'.memory = pc.memory ∧
          pc'.blockSize = pc.blockSize ∧ pc'.blockCount = pc.blockCount := by
  intro l
  induction l with
  | nil => intro b bs l' h; simp [PoolAllocator.allocLoop] at h
  | cons hd tl ih =>
    intro b bs l' h
    simp only [PoolAllocator.allocLoop] at h
    split at h
    · split at h
      · simp at h
      · rename_i b0 fl hfl
        simp only [Except.ok.injEq, Prod.mk.injEq, Option.some.injEq] at h
        obtain ⟨⟨hb, hbs⟩, hl⟩ := h
        refine ⟨hd, List.mem_cons_self _ _, ?_, hbs.symm,
          { hd with freeList := fl }, ?_, rfl, rfl, rfl⟩
        · rw [hfl, ← hb]; exact List.mem_cons_self _ _
        · rw [← hl]; exact List.mem_cons_self _ _
    · split at h
      · rename_i r rest' hrec
        simp only [Except.ok.injEq, Prod.mk.injEq] at h
        obtain ⟨hr, hl⟩ := h
        obtain ⟨pc, hmem, hbfl, hbs, pc', hmem', e1, e2, e3⟩ := ih (hr ▸ hrec)
        exact ⟨pc, List.mem_cons_of_mem _ hmem, hbfl, hbs,
          pc', by rw [← hl]; exact List.mem_cons_of_mem _ hmem', e1, e2, e3⟩
      · exact absurd h (by simp)

theorem stack_allocate_preserves {s : StackAllocator.State} {size align : Nat}
    {r : Option Nat} {s' : StackAllocator.State}
    (h : StackAllocator.Allocate s size align = (r, s')) :
    s.offset ≤ s'.offset ∧ s'.base = s.base ∧ s'.bufferSize = s.bufferSize ∧
      s'.markers = s.markers := by
  simp only [StackAllocator.Allocate] at h
  split at h
  · simp only [Prod.mk.injEq] at h
    obtain ⟨-, hs⟩ := h
    rw [← hs]
    exact ⟨Nat.le_refl _, rfl, rfl, rfl⟩
  · simp only [Prod.mk.injEq] at h
    obtain ⟨-, hs⟩ := h
    rw [← hs]
    refine ⟨?_, rfl, rfl, rfl⟩
    show s.offset ≤ s.offset + (size + 16) + (align - (s.offset + 16) % align) % align
    omega

theorem allocMany_preserves :
    ∀ (reqs : List (Nat × Nat)) {s s' : StackAllocator.State},
      StackAllocator.allocMany s reqs = some s' →
      s.offset ≤ s'.offset ∧ s'.base = s.base ∧ s'.bufferSize = s.bufferSize ∧
        s'.markers = s.markers := by
  intro reqs
  induction reqs with
  | nil =>
    intro s s' h
    cases Option.some.inj h
    exact ⟨Nat.le_refl _, rfl, rfl, rfl⟩
  | cons hd tl ih =>
    intro s s' h
    obtain ⟨sz, al⟩ := hd
    simp only [StackAllocator.allocMany] at h
    split at h
    · rename_i p s1 heq
      obtain ⟨h1, h2, h3, h4⟩ := ih h
      obtain ⟨g1, g2, g3, g4⟩ := stack_allocate_preserves heq
      exact ⟨Nat.le_trans g1 h1, h2.trans g2, h3.trans g3, h4.trans g4⟩
    · exact absurd h (by simp)

theorem stack_allocate_fst_congr {s t : StackAllocator.State} (size align : Nat)
    (hoff : t.offset = s.offset) (hbase : t.base = s.base)
    (hbuf : t.bufferSize = s.bufferSize) :
    (StackAllocator.Allocate t size align).1 =
      (StackAllocator.Allocate s size align).1 := by
  simp only [StackAllocator.Allocate, hoff, hbase, hbuf]
  by_cases hc : s.bufferSize <
      s.offset + (size + 16) + (align - (s.offset + 16) % align) % align
  · rw [if_pos hc, if_pos hc]
  · rw [if_neg hc, if_neg hc]

theorem allocLoop_of_find_nil {size : Nat} :
    ∀ {l : List PoolAllocator.PoolClass} {pc : PoolAllocator.PoolClass},
      l.find? (fun q => decide (size ≤ q.blockSize)) = some pc →
      pc.freeList = [] →
      PoolAllocator.allocLoop size l = .ok (none, l) := by
  intro l
  induction l with
  | nil => intro pc h _; simp at h
  | cons hd tl ih =>
    intro pc h hfl
    by_cases hsz : size ≤ hd.blockSize
    · rw [List.find?_cons_of_pos _ (by simpa using hsz)] at h
      cases Option.some.inj h
      simp only [PoolAllocator.allocLoop]
      rw [if_pos hsz, hfl]
    · rw [List.find?_cons_of_neg _ (by simpa using hsz)] at h
      simp only [PoolAllocator.allocLoop]
      rw [if_neg hsz, ih h hfl]

theorem allocLoop_of_find_cons {size : Nat} :
    ∀ {l : List PoolAllocator.PoolClass} {pc : PoolAllocator.PoolClass}
      {b : Nat} {fl : List Nat},
      l.find? (fun q => decide (size ≤ q.blockSize)) = some pc →
      pc.freeList = b :: fl →
      ∃ l', PoolAllocator.allocLoop size l = .ok (some (b, pc.blockSize), l') := by
  intro l
  induction l with
  | nil => intro pc b fl h _; simp at h
  | cons hd tl ih =>
    intro pc b fl h hfl
    by_cases hsz : size ≤ hd.blockSize
    · rw [List.find?_cons_of_pos _ (by simpa using hsz)] at h
      cases Option.some.inj h
      simp only [PoolAllocator.allocLoop]
      rw [if_pos hsz, hfl]
      exact ⟨_, rfl⟩
    · rw [List.find?_cons_of_neg _ (by simpa using hsz)] at h
      obtain ⟨l', hl'⟩ := ih h hfl
      simp only [PoolAllocator.allocLoop]
      rw [if_neg hsz, hl']
      exact ⟨_, rfl⟩

/-! ## Claim theorems -/

/-- Claim C1 (code bug): the claim says ValidateInternalState() returns true
in every reachable quiescent state, with free bytes plus GetTotalAllocated()
equal to the constructor's buffer size. The code contradicts this after a
single allocation: Allocate removes `requiredSize` bytes from the freelist
but adds only `requiredSize - sizeof(FreeBlock)` to the counter, so with a
1024-byte buffer at 16-aligned base 16, after Allocate(200, 8) the
validation walk sums 792 free + 216 allocated = 1008 = 1024 - 16 and
ValidateInternalState returns false. -/
theorem C1_freelist_validate_fails_after_allocate :
    (FreeListAllocator.Allocate (FreeListAllocator.mk 16 1024) 200 8).1 = some 48 ∧
    FreeListAllocator.ValidateInternalState
      (FreeListAllocator.Allocate (FreeListAllocator.mk 16 1024) 200 8).2 = false ∧
    FreeListAllocator.sumFree
        (FreeListAllocator.Allocate (FreeListAllocator.mk 16 1024) 200 8).2.freeList +
      FreeListAllocator.GetTotalAllocated
        (FreeListAllocator.Allocate (FreeListAllocator.mk 16 1024) 200 8).2 = 1008 := by
  decide

/-- Claim C4: for a free-list allocator over a 1024-byte buffer (base taken
as 0, a 16-aligned address as operator new provides), after
a = Allocate(200,8) = 32, b = Allocate(200,8) = 264, c = Allocate(200,8) = 496,
then Free(b), Free(a), Free(c), coalescing restores the single free block
(0, 1024) spanning the whole buffer, and Allocate(900, 8) then returns a
non-null pointer. -/
theorem C4_freelist_coalesce_scenario :
    (FreeListAllocator.allocN (FreeListAllocator.mk 0 1024)
        [(200, 8), (200, 8), (200, 8)]).1 = [some 32, some 264, some 496] ∧
    FreeListAllocator.freeAll
        (FreeListAllocator.allocN (FreeListAllocator.mk 0 1024)
          [(200, 8), (200, 8), (200, 8)]).2 [264, 32, 496] =
      some ⟨0, 1024, [(0, 1024)], [], 0, 648, 0⟩ ∧
    (FreeListAllocator.Allocate ⟨0, 1024, [(0, 1024)], [], 0, 648, 0⟩ 900 8).1 =
      some 32 := by
  decide

/-- Claim C9: Reset() on the linear and stack allocators zeroes the offset
and allocation count (and clears the stack's marker stack) but leaves peak
usage unchanged; only the free-list allocator's Reset() also zeroes peak
usage (and restores the single spanning free block). -/
theorem C9_reset_counters_and_peak :
    (∀ s : LinearAllocator.State,
      (LinearAllocator.Reset s).offset = 0 ∧
      (LinearAllocator.Reset s).allocationCount = 0 ∧
      (LinearAllocator.Reset s).peakUsage = s.peakUsage) ∧
    (∀ s : StackAllocator.State,
      (StackAllocator.Reset s).offset = 0 ∧
      (StackAllocator.Reset s).allocationCount = 0 ∧
      (StackAllocator.Reset s).markers = [] ∧
      (StackAllocator.Reset s).peakUsage = s.peakUsage) ∧
    (∀ s : FreeListAllocator.State,
      (FreeListAllocator.Reset s).allocatedSize = 0 ∧
      (FreeListAllocator.Reset s).allocationCount = 0 ∧
      (FreeListAllocator.Reset s).peakUsage = 0 ∧
      (FreeListAllocator.Reset s).freeList = [(s.base, s.bufferSize)]) :=
  ⟨fun _ => ⟨rfl, rfl, rfl⟩, fun _ => ⟨rfl, rfl, rfl, rfl⟩,
   fun _ => ⟨rfl, rfl, rfl, rfl⟩⟩

/-- Claim C2 counterexample: the claim says Allocate never raises an error
at runtime, returning null even when the pool allocator is given a size
larger than every declared class's block size. In the code, findPool throws
std::runtime_error in that case: with a single (32, 4) class, Allocate(100, 8)
propagates the error instead of returning null. -/
theorem C2_pool_allocate_throws_cex :
    PoolAllocator.Allocate ⟨[PoolAllocator.mkPoolClass 1000 32 4], 0, 0, 0⟩ 100 8 =
      .error () ∧
    PoolAllocator.isOkB
      (PoolAllocator.Allocate ⟨[PoolAllocator.mkPoolClass 1000 32 4], 0, 0, 0⟩
        100 8) = false := by
  decide

/-- Claim C3 counterexample: (1) the linear allocator aligns the offset, not
the absolute address — with buffer base 8, Allocate(8, 16) returns pointer 8
and 8 mod 16 ≠ 0, so the claim fails "regardless of the buffer's base
address"; (2) the pool allocator ignores alignment — with one (24, 2) class
at 16-aligned slab base 16, Allocate(20, 16) returns pointer 40 and
40 mod 16 ≠ 0; (3) for Allocate(0, 8) the linear allocator returns a
non-null pointer it does not own. -/
theorem C3_alignment_ownership_cex :
    ((LinearAllocator.Allocate ⟨8, 64, 0, 0, 0⟩ 8 16).1 = some 8 ∧ 8 % 16 ≠ 0) ∧
    (PoolAllocator.allocPtr
        (PoolAllocator.Allocate ⟨[PoolAllocator.mkPoolClass 16 24 2], 0, 0, 0⟩ 20 16) =
      some (some 40) ∧ 40 % 16 ≠ 0) ∧
    ((LinearAllocator.Allocate ⟨16, 64, 0, 0, 0⟩ 0 8).1 = some 16 ∧
      LinearAllocator.Owns (LinearAllocator.Allocate ⟨16, 64, 0, 0, 0⟩ 0 8).2 16 =
        false) := by
  decide

/-- Claim C7 counterexample: the claim says GetAllocationSize(p) returns 0
for every non-owned pointer on every allocator. The free-list allocator only
checks for null and otherwise dereferences the 16 bytes before p as a
header: for the fresh 1024-byte allocator at base 16 and the non-owned
pointer 2000 the read is out of bounds (indeterminate, modelled as `none`),
not 0. -/
theorem C7_allocation_size_nonowned_cex :
    FreeListAllocator.Owns (FreeListAllocator.mk 16 1024) 2000 = false ∧
    FreeListAllocator.GetAllocationSize (FreeListAllocator.mk 16 1024) 2000 ≠
      some 0 := by
  decide

/-- Claim C8: when Allocate on the linear or stack allocator returns null
because the advance would exceed capacity, the call leaves the entire state
(offset, counters, peak, markers, buffer header contents) unchanged. -/
theorem C8_failed_allocate_no_state_change :
    (∀ (s : LinearAllocator.State) (size align : Nat) (s' : LinearAllocator.State),
      LinearAllocator.Allocate s size align = (none, s') → s' = s) ∧
    (∀ (s : StackAllocator.State) (size align : Nat) (s' : StackAllocator.State),
      StackAllocator.Allocate s size align = (none, s') → s' = s) := by
  constructor
  · intro s size align s' h
    simp only [LinearAllocator.Allocate] at h
    split at h
    · injection h with h1 h2
      exact h2.symm
    · simp at h
  · intro s size align s' h
    simp only [StackAllocator.Allocate] at h
    split at h
    · injection h with h1 h2
      exact h2.symm
    · simp at h

/-- Claim C8 witness: a linear allocator with an 8-byte buffer rejects
Allocate(100, 8) and is left unchanged. -/
theorem C8_failed_allocate_witness :
    LinearAllocator.Allocate ⟨16, 8, 0, 0, 0⟩ 100 8 = (none, ⟨16, 8, 0, 0, 0⟩) ∧
    (⟨16, 8, 0, 0, 0⟩ : LinearAllocator.State) = ⟨16, 8, 0, 0, 0⟩ :=
  ⟨by decide, C8_failed_allocate_no_state_change.1 ⟨16, 8, 0, 0, 0⟩ 100 8 _ (by decide)⟩

/-- Claim C10: for the linear allocator with enough remaining capacity,
Allocate(0, alignment) returns (non-null) the pointer base + post-call
offset; that pointer is not owned and GetAllocationSize of it is 0, until a
later allocation of positive size advances the offset past it, after which
Owns of it is true. -/
theorem C10_linear_zero_size_allocate
    (s : LinearAllocator.State) (align : Nat)
    (hcap : s.offset + (align - s.offset % align) % align ≤ s.bufferSize) :
    (LinearAllocator.Allocate s 0 align).1 =
      some (s.base + (LinearAllocator.Allocate s 0 align).2.offset) ∧
    LinearAllocator.Owns (LinearAllocator.Allocate s 0 align).2
      (s.base + (LinearAllocator.Allocate s 0 align).2.offset) = false ∧
    LinearAllocator.GetAllocationSize (LinearAllocator.Allocate s 0 align).2
      (s.base + (LinearAllocator.Allocate s 0 align).2.offset) = 0 ∧
    (∀ (sz al p2 : Nat) (s'' : LinearAllocator.State), 1 ≤ sz →
      LinearAllocator.Allocate (LinearAllocator.Allocate s 0 align).2 sz al =
        (some p2, s'') →
      LinearAllocator.Owns s''
        (s.base + (LinearAllocator.Allocate s 0 align).2.offset) = true) := by
  have hres : LinearAllocator.Allocate s 0 align =
      (some (s.base + s.offset + (align - s.offset % align) % align),
       { s with
         offset := s.offset + (align - s.offset % align) % align + 0
         allocationCount := s.allocationCount + 1
         peakUsage := max s.peakUsage
           (s.offset + (align - s.offset % align) % align + 0) }) := by
    simp only [LinearAllocator.Allocate]
    rw [if_neg (by omega)]
  rw [hres]
  refine ⟨by simp [Nat.add_assoc], ?_, ?_, ?_⟩
  · simp only [LinearAllocator.Owns, decide_eq_false_iff_not]
    omega
  · simp only [LinearAllocator.GetAllocationSize]
    rw [if_pos (Or.inr (by omega))]
  · intro sz al p2 s'' hsz h
    simp only [LinearAllocator.Allocate] at h
    split at h
    · simp at h
    · injection h with h1 h2
      rw [← h2]
      simp only [LinearAllocator.Owns, decide_eq_true_eq]
      omega

/-- Claim C10 witness: base 16, 64-byte buffer, Allocate(0, 8) returns
pointer 16 = base + offset, which is not owned and has allocation size 0. -/
theorem C10_linear_zero_size_witness :
    (LinearAllocator.Allocate ⟨16, 64, 0, 0, 0⟩ 0 8).1 =
      some (16 + (LinearAllocator.Allocate ⟨16, 64, 0, 0, 0⟩ 0 8).2.offset) ∧
    LinearAllocator.Owns (LinearAllocator.Allocate ⟨16, 64, 0, 0, 0⟩ 0 8).2
      (16 + (LinearAllocator.Allocate ⟨16, 64, 0, 0, 0⟩ 0 8).2.offset) = false ∧
    LinearAllocator.GetAllocationSize (LinearAllocator.Allocate ⟨16, 64, 0, 0, 0⟩ 0 8).2
      (16 + (LinearAllocator.Allocate ⟨16, 64, 0, 0, 0⟩ 0 8).2.offset) = 0 :=
  ⟨(C10_linear_zero_size_allocate ⟨16, 64, 0, 0, 0⟩ 8 (by decide)).1,
   (C10_linear_zero_size_allocate ⟨16, 64, 0, 0, 0⟩ 8 (by decide)).2.1,
   (C10_linear_zero_size_allocate ⟨16, 64, 0, 0, 0⟩ 8 (by decide)).2.2.1⟩

/-- Claim C2 as amended: runtime exhaustion is surfaced as a null return —
the linear, stack and free-list allocators return null when no region fits,
and the pool allocator returns null (without throwing) when some declared
class has block_size ≥ size; but when the requested size exceeds every
declared class's block_size, the pool's findPool throws an error instead of
returning null. -/
theorem C2_null_on_exhaustion_amended :
    (∀ (s : PoolAllocator.State) (size align : Nat),
      (∀ pc ∈ s.pools, pc.blockSize < size) →
      PoolAllocator.Allocate s size align = .error ()) ∧
    (∀ (s : PoolAllocator.State) (size align : Nat),
      (∃ pc ∈ s.pools, size ≤ pc.blockSize) →
      PoolAllocator.isOkB (PoolAllocator.Allocate s size align) = true) ∧
    (∀ (s : FreeListAllocator.State) (size align : Nat),
      (∀ b ∈ s.freeList,
        b.2 < size + 16 + (alignUp (b.1 + 16 + 16) align - (b.1 + 16))) →
      FreeListAllocator.Allocate s size align = (none, s)) ∧
    (∀ (s : LinearAllocator.State) (size align : Nat),
      s.bufferSize < s.offset + (align - s.offset % align) % align + size →
      LinearAllocator.Allocate s size align = (none, s)) ∧
    (∀ (s : StackAllocator.State) (size align : Nat),
      s.bufferSize < s.offset + (size + 16) + (align - (s.offset + 16) % align) % align →
      StackAllocator.Allocate s size align = (none, s)) := by
  refine ⟨?_, ?_, ?_, ?_, ?_⟩
  · intro s size align h
    unfold PoolAllocator.Allocate
    rw [allocLoop_error_of_no_class h]
  · intro s size align h
    obtain ⟨out, hout⟩ := allocLoop_ok_of_class h
    unfold PoolAllocator.Allocate
    rw [hout]
    obtain ⟨r, ps⟩ := out
    cases r with
    | none => rfl
    | some rb =>
      obtain ⟨b, bs⟩ := rb
      rfl
  · intro s size align h
    unfold FreeListAllocator.Allocate
    rw [allocWalk_none_of_no_fit h]
  · intro s size align h
    simp only [LinearAllocator.Allocate]
    rw [if_pos h]
  · intro s size align h
    simp only [StackAllocator.Allocate]
    rw [if_pos h]

/-- Claim C2 witness: with one (32, 4) pool class, Allocate(33, 8) throws
(error) while Allocate(20, 8) returns normally; a full 8-byte linear
allocator rejects Allocate(100, 8) with null and no state change. -/
theorem C2_null_on_exhaustion_witness :
    PoolAllocator.Allocate ⟨[PoolAllocator.mkPoolClass 1000 32 4], 0, 0, 0⟩ 33 8 =
      .error () ∧
    PoolAllocator.isOkB
      (PoolAllocator.Allocate ⟨[PoolAllocator.mkPoolClass 1000 32 4], 0, 0, 0⟩
        20 8) = true ∧
    LinearAllocator.Allocate ⟨16, 8, 0, 0, 0⟩ 100 8 = (none, ⟨16, 8, 0, 0, 0⟩) :=
  ⟨C2_null_on_exhaustion_amended.1 ⟨[PoolAllocator.mkPoolClass 1000 32 4], 0, 0, 0⟩
      33 8 (by decide),
   C2_null_on_exhaustion_amended.2.1 ⟨[PoolAllocator.mkPoolClass 1000 32 4], 0, 0, 0⟩
      20 8 ⟨PoolAllocator.mkPoolClass 1000 32 4, by decide, by decide⟩,
   C2_null_on_exhaustion_amended.2.2.2.1 ⟨16, 8, 0, 0, 0⟩ 100 8 (by decide)⟩

/-- Claim C3 as amended: for a power-of-two alignment and a request of at
least one byte, every non-null pointer returned by Allocate is owned by the
allocator, and alignment holds in the form the code computes it: the linear
and stack allocators align the offset, so `(p - base) mod alignment = 0`
(p itself is aligned only when the base is); the free-list allocator aligns
the absolute address, so `p mod alignment = 0`; the pool allocator ignores
the alignment argument entirely and only ownership holds (for freelists
whose blocks lie inside their slabs). -/
theorem C3_alignment_ownership_amended :
    (∀ (s : LinearAllocator.State) (size align p : Nat) (s' : LinearAllocator.State),
      (∃ k, align = 2 ^ k) → 1 ≤ size →
      LinearAllocator.Allocate s size align = (some p, s') →
      LinearAllocator.Owns s' p = true ∧ (p - s.base) % align = 0) ∧
    (∀ (s : StackAllocator.State) (size align p : Nat) (s' : StackAllocator.State),
      (∃ k, align = 2 ^ k) → 1 ≤ size →
      StackAllocator.Allocate s size align = (some p, s') →
      StackAllocator.Owns s' p = true ∧ (p - s.base) % align = 0) ∧
    (∀ (s : FreeListAllocator.State) (size align p : Nat)
        (s' : FreeListAllocator.State),
      (∃ k, align = 2 ^ k) → 1 ≤ size →
      (∀ b ∈ s.freeList, s.base ≤ b.1 ∧ b.1 + b.2 ≤ s.base + s.bufferSize) →
      FreeListAllocator.Allocate s size align = (some p, s') →
      FreeListAllocator.Owns s' p = true ∧ p % align = 0) ∧
    (∀ (s : PoolAllocator.State) (size align p : Nat) (s' : PoolAllocator.State),
      (∀ pc ∈ s.pools, ∀ b ∈ pc.freeList,
        pc.memory ≤ b ∧ b < pc.memory + pc.blockSize * pc.blockCount) →
      PoolAllocator.Allocate s size align = .ok (some p, s') →
      PoolAllocator.Owns s' p = true) := by
  refine ⟨?_, ?_, ?_, ?_⟩
  · intro s size align p s' hpow hsize h
    obtain ⟨k, hk⟩ := hpow
    have hal : 1 ≤ align := hk ▸ Nat.one_le_two_pow
    simp only [LinearAllocator.Allocate] at h
    split at h
    · simp at h
    · simp only [Prod.mk.injEq, Option.some.injEq] at h
      obtain ⟨hp, hs⟩ := h
      have hoff : s'.offset = s.offset + (align - s.offset % align) % align + size := by
        rw [← hs]
      have hbase : s'.base = s.base := by rw [← hs]
      constructor
      · simp only [LinearAllocator.Owns, decide_eq_true_eq]
        rw [hbase, hoff, ← hp]
        omega
      · have heq : p - s.base = s.offset + (align - s.offset % align) % align := by
          omega
        rw [heq]
        exact aligned_pad_mod align s.offset hal
  · intro s size align p s' hpow hsize h
    obtain ⟨k, hk⟩ := hpow
    have hal : 1 ≤ align := hk ▸ Nat.one_le_two_pow
    simp only [StackAllocator.Allocate] at h
    split at h
    · simp at h
    · simp only [Prod.mk.injEq, Option.some.injEq] at h
      obtain ⟨hp, hs⟩ := h
      have hoff : s'.offset =
          s.offset + (size + 16) + (align - (s.offset + 16) % align) % align := by
        rw [← hs]
      have hbase : s'.base = s.base := by rw [← hs]
      constructor
      · simp only [StackAllocator.Owns, decide_eq_true_eq]
        rw [hbase, hoff, ← hp]
        omega
      · have heq : p - s.base =
            s.offset + 16 + (align - (s.offset + 16) % align) % align := by
          omega
        rw [heq]
        exact aligned_pad_mod align (s.offset + 16) hal
  · intro s size align p s' hpow hsize hrange h
    obtain ⟨k, hk⟩ := hpow
    have hal : 1 ≤ align := hk ▸ Nat.one_le_two_pow
    cases hw : FreeListAllocator.allocWalk size align s.freeList with
    | none => simp [FreeListAllocator.Allocate, hw] at h
    | some r =>
      obtain ⟨⟨p0, req, pad⟩, fl⟩ := r
      simp only [FreeListAllocator.Allocate, hw, Prod.mk.injEq,
        Option.some.injEq] at h
      obtain ⟨hp, hs⟩ := h
      obtain ⟨c, bsz, hmem, hpal, hpad, hreq1, hreq2⟩ := allocWalk_some_spec hw
      obtain ⟨hcl, hcu⟩ := hrange (c, bsz) hmem
      have hple : c + 16 + 16 ≤ p0 := hpal ▸ le_alignUp _ _ hal
      have hbase : s'.base = s.base := by rw [← hs]
      have hbuf : s'.bufferSize = s.bufferSize := by rw [← hs]
      constructor
      · simp only [FreeListAllocator.Owns, decide_eq_true_eq]
        rw [hbase, hbuf, ← hp]
        omega
      · rw [← hp, hpal]
        exact alignUp_mod _ _
  · intro s size align p s' hrange h
    cases hw : PoolAllocator.allocLoop size s.pools with
    | error e => simp [PoolAllocator.Allocate, hw] at h
    | ok out =>
      obtain ⟨r, ps⟩ := out
      cases r with
      | none => simp [PoolAllocator.Allocate, hw] at h
      | some rb =>
        obtain ⟨b, bs⟩ := rb
        simp only [PoolAllocator.Allocate, hw, Except.ok.injEq, Prod.mk.injEq,
          Option.some.injEq] at h
        obtain ⟨hb, hs⟩ := h
        obtain ⟨pc, hmem, hbfl, -, pc', hmem', e1, e2, e3⟩ := allocLoop_some_spec hw
        obtain ⟨hl, hu⟩ := hrange pc hmem b hbfl
        have hpools : s'.pools = ps := by rw [← hs]
        simp only [PoolAllocator.Owns, List.any_eq_true, decide_eq_true_eq]
        exact ⟨pc', hpools ▸ hmem', by rw [e1, e2, e3, ← hb]; exact ⟨hl, hu⟩⟩

/-- Claim C3 witness: a linear allocator at base 16 returns pointer 16 for
Allocate(8, 8); it owns the pointer and the offset is aligned. -/
theorem C3_alignment_ownership_witness :
    LinearAllocator.Owns ⟨16, 64, 8, 8, 1⟩ 16 = true ∧ (16 - 16) % 8 = 0 :=
  C3_alignment_ownership_amended.1 ⟨16, 64, 0, 0, 0⟩ 8 8 16 ⟨16, 64, 8, 8, 1⟩
    ⟨3, rfl⟩ (by decide) (by decide)

/-- Claim C5: after PushMarker(), a successful allocation (the first after
the marker, returning p1), then any further successful allocations, and
PopMarker(), the offset is rewound exactly to the pushed marker value, and
the next Allocate with the same size and alignment returns the same
address p1. -/
theorem C5_stack_marker_rewind (s : StackAllocator.State) (size align : Nat)
    (reqs : List (Nat × Nat)) (p1 : Nat) (s2 s3 : StackAllocator.State)
    (h1 : StackAllocator.Allocate (StackAllocator.PushMarker s) size align =
      (some p1, s2))
    (h2 : StackAllocator.allocMany s2 reqs = some s3) :
    (StackAllocator.PopMarker s3).offset = s.offset ∧
    (StackAllocator.Allocate (StackAllocator.PopMarker s3) size align).1 =
      some p1 := by
  obtain ⟨g1, g2, g3, g4⟩ := stack_allocate_preserves h1
  obtain ⟨k1, k2, k3, k4⟩ := allocMany_preserves reqs h2
  have hmark : s3.markers = s.offset :: s.markers := by rw [k4, g4]; rfl
  have hoffle : s.offset ≤ s3.offset := by
    have hpo : (StackAllocator.PushMarker s).offset = s.offset := rfl
    omega
  have hpop : StackAllocator.PopMarker s3 =
      { StackAllocator.FreeToMarker s3 s.offset with markers := s.markers } := by
    unfold StackAllocator.PopMarker
    rw [hmark]
  have hftm : StackAllocator.FreeToMarker s3 s.offset =
      { s3 with offset := s.offset } := by
    unfold StackAllocator.FreeToMarker
    rw [if_pos hoffle]
  have hoffpop : (StackAllocator.PopMarker s3).offset = s.offset := by
    rw [hpop, hftm]
  refine ⟨hoffpop, ?_⟩
  have hbpop : (StackAllocator.PopMarker s3).base =
      (StackAllocator.PushMarker s).base := by
    rw [hpop, hftm]
    exact k2.trans g2
  have hbufpop : (StackAllocator.PopMarker s3).bufferSize =
      (StackAllocator.PushMarker s).bufferSize := by
    rw [hpop, hftm]
    exact k3.trans g3
  have hoffpop' : (StackAllocator.PopMarker s3).offset =
      (StackAllocator.PushMarker s).offset := hoffpop
  have hcongr := @stack_allocate_fst_congr (StackAllocator.PushMarker s)
    (StackAllocator.PopMarker s3) size align hoffpop' hbpop hbufpop
  rw [hcongr, h1]

/-- Claim C5 witness: the S2 scenario at base 16 with a 1024-byte buffer —
push_marker; allocate(64,16) = 32; allocate(64,16); pop_marker rewinds the
offset to 0 and allocate(64,16) returns 32 again. -/
theorem C5_stack_marker_witness :
    (StackAllocator.PopMarker
      ⟨16, 1024, 160, [0], [(112, 64, 16), (32, 64, 16)], 160, 2⟩).offset = 0 ∧
    (StackAllocator.Allocate
      (StackAllocator.PopMarker
        ⟨16, 1024, 160, [0], [(112, 64, 16), (32, 64, 16)], 160, 2⟩) 64 16).1 =
      some 32 :=
  C5_stack_marker_rewind ⟨16, 1024, 0, [], [], 0, 0⟩ 64 16 [(64, 16)] 32
    ⟨16, 1024, 80, [0], [(32, 64, 16)], 80, 1⟩
    ⟨16, 1024, 160, [0], [(112, 64, 16), (32, 64, 16)], 160, 2⟩
    (by decide) (by decide)

/-- Claim C6: pool Allocate selects the first size class in declared order
with block_size ≥ size; if that class's freelist is empty it returns null
with the state unchanged (no fallback to later classes), and on success it
returns the class's freelist head and GetTotalAllocated grows by exactly
that class's block_size, not by the requested size. -/
theorem C6_pool_first_fit_class (s : PoolAllocator.State) (size align : Nat)
    (pc : PoolAllocator.PoolClass)
    (hfind : s.pools.find? (fun q => decide (size ≤ q.blockSize)) = some pc) :
    (pc.freeList = [] → PoolAllocator.Allocate s size align = .ok (none, s)) ∧
    (∀ b fl, pc.freeList = b :: fl →
      PoolAllocator.allocPtr (PoolAllocator.Allocate s size align) =
        some (some b) ∧
      (PoolAllocator.allocState (PoolAllocator.Allocate s size align)).map
        PoolAllocator.GetTotalAllocated =
          some (s.totalAllocated + pc.blockSize)) := by
  constructor
  · intro hfl
    unfold PoolAllocator.Allocate
    rw [allocLoop_of_find_nil hfind hfl]
  · intro b fl hfl
    obtain ⟨l', hl'⟩ := allocLoop_of_find_cons hfind hfl
    unfold PoolAllocator.Allocate PoolAllocator.allocPtr PoolAllocator.allocState
    rw [hl']
    exact ⟨rfl, rfl⟩

/-- Claim C6 witness: with classes (32, 4) then (128, 2), Allocate(20, 8)
picks the first class, returns its freelist head 1096, and the in-use
counter grows by 32, the class block size, not by 20. -/
theorem C6_pool_first_fit_witness :
    PoolAllocator.allocPtr
      (PoolAllocator.Allocate
        ⟨[PoolAllocator.mkPoolClass 1000 32 4, PoolAllocator.mkPoolClass 2000 128 2],
          0, 0, 0⟩ 20 8) = some (some 1096) ∧
    (PoolAllocator.allocState
        (PoolAllocator.Allocate
          ⟨[PoolAllocator.mkPoolClass 1000 32 4, PoolAllocator.mkPoolClass 2000 128 2],
            0, 0, 0⟩ 20 8)).map PoolAllocator.GetTotalAllocated = some 32 :=
  (C6_pool_first_fit_class
      ⟨[PoolAllocator.mkPoolClass 1000 32 4, PoolAllocator.mkPoolClass 2000 128 2],
        0, 0, 0⟩ 20 8 (PoolAllocator.mkPoolClass 1000 32 4) (by decide)).2
    1096 [1064, 1032, 1000] (by decide)

/-- Claim C7 as amended: the linear, stack and pool allocators return 0 from
GetAllocationSize for null or non-owned pointers, and the stack allocator
returns the requested size for a live allocation; the free-list allocator
returns 0 only for null — any other pointer, owned or not, has the 16 bytes
before it read as a header (indeterminate for pointers without one), and a
live pointer yields its usable size, at least the requested size. -/
theorem C7_allocation_size_amended :
    (∀ (s : LinearAllocator.State) (p : Nat),
      LinearAllocator.Owns s p = false →
      LinearAllocator.GetAllocationSize s p = 0) ∧
    (∀ (s : StackAllocator.State) (p : Nat),
      StackAllocator.Owns s p = false →
      StackAllocator.GetAllocationSize s p = some 0) ∧
    (∀ (s : PoolAllocator.State) (p : Nat),
      PoolAllocator.Owns s p = false →
      PoolAllocator.GetAllocationSize s p = 0) ∧
    (∀ s : FreeListAllocator.State,
      FreeListAllocator.GetAllocationSize s 0 = some 0) ∧
    (∀ (s : FreeListAllocator.State) (p : Nat), p ≠ 0 →
      findEntry s.headers p = none →
      FreeListAllocator.GetAllocationSize s p = none) ∧
    (∀ (s : FreeListAllocator.State) (size align p : Nat)
        (s' : FreeListAllocator.State),
      1 ≤ align → align ≤ 240 →
      FreeListAllocator.Allocate s size align = (some p, s') →
      (FreeListAllocator.GetAllocationSize s' p).isSome = true ∧
      size ≤ (FreeListAllocator.GetAllocationSize s' p).getD 0) ∧
    (∀ (s : StackAllocator.State) (size align p : Nat)
        (s' : StackAllocator.State),
      1 ≤ size →
      StackAllocator.Allocate s size align = (some p, s') →
      StackAllocator.GetAllocationSize s' p = some size) := by
  refine ⟨?_, ?_, ?_, ?_, ?_, ?_, ?_⟩
  · intro s p h
    simp only [LinearAllocator.Owns, decide_eq_false_iff_not] at h
    simp only [LinearAllocator.GetAllocationSize]
    rw [if_pos (by omega)]
  · intro s p h
    simp [StackAllocator.GetAllocationSize, h]
  · intro s p h
    simp only [PoolAllocator.Owns, List.any_eq_false, decide_eq_true_eq] at h
    simp only [PoolAllocator.GetAllocationSize]
    rw [List.find?_eq_none.mpr (fun pc hpc => by simpa using h pc hpc)]
  · intro s
    rfl
  · intro s p hp hent
    simp only [FreeListAllocator.GetAllocationSize]
    rw [if_neg hp, hent]
    rfl
  · intro s size align p s' hal h240 h
    cases hw : FreeListAllocator.allocWalk size align s.freeList with
    | none => simp [FreeListAllocator.Allocate, hw] at h
    | some r =>
      obtain ⟨⟨p0, req, pad⟩, fl⟩ := r
      simp only [FreeListAllocator.Allocate, hw, Prod.mk.injEq,
        Option.some.injEq] at h
      obtain ⟨hp, hs⟩ := h
      subst hp
      obtain ⟨c, bsz, hmem, hpal, hpad, hreq1, hreq2⟩ := allocWalk_some_spec hw
      have hple : c + 16 + 16 ≤ p0 := hpal ▸ le_alignUp _ _ hal
      have hub : p0 ≤ c + 16 + 16 + align - 1 := hpal ▸ alignUp_le _ _
      have hpadlt : pad < 256 := by omega
      have hheaders : s'.headers = (p0, req, pad % 256) :: s.headers := by
        rw [← hs]
      simp only [FreeListAllocator.GetAllocationSize]
      rw [if_neg (by omega), hheaders]
      have hfind : findEntry ((p0, req, pad % 256) :: s.headers) p0 =
          some (req, pad % 256) := by
        simp [findEntry]
      rw [hfind]
      refine ⟨rfl, ?_⟩
      show size ≤ req - 16 - pad % 256
      rw [Nat.mod_eq_of_lt hpadlt]
      omega
  · intro s size align p s' hsize h
    simp only [StackAllocator.Allocate] at h
    split at h
    · simp at h
    · simp only [Prod.mk.injEq, Option.some.injEq] at h
      obtain ⟨hp, hs⟩ := h
      have hoff : s'.offset =
          s.offset + (size + 16) + (align - (s.offset + 16) % align) % align := by
        rw [← hs]
      have hbase : s'.base = s.base := by rw [← hs]
      have hheaders : s'.headers =
          (p, size, 16 + (align - (s.offset + 16) % align) % align) ::
            s.headers := by
        rw [← hs, hp]
      have howns : StackAllocator.Owns s' p = true := by
        simp only [StackAllocator.Owns, decide_eq_true_eq]
        rw [hbase, hoff, ← hp]
        omega
      simp only [StackAllocator.GetAllocationSize]
      rw [if_pos howns, hheaders]
      simp [findEntry]

/-- Claim C7 witness: after the stack allocator at base 16 allocates 64
bytes at alignment 16 returning pointer 32, GetAllocationSize(32) returns
the requested 64 bytes. -/
theorem C7_allocation_size_witness :
    StackAllocator.GetAllocationSize
      ⟨16, 1024, 80, [], [(32, 64, 16)], 80, 1⟩ 32 = some 64 :=
  C7_allocation_size_amended.2.2.2.2.2.2 ⟨16, 1024, 0, [], [], 0, 0⟩ 64 16 32
    ⟨16, 1024, 80, [], [(32, 64, 16)], 80, 1⟩ (by decide) (by decide)

end Mem
